import Mathlib

/-!
Verification of the task-manager agent: a shallow embedding of the task
data model (task.py), the in-memory store (todo_service.py) and the
tool-dispatch agent loop (agent_service.py), together with proofs of the
specified properties.  Python dates are modelled as year/month/day
triples with an explicit calendar-validity predicate; the module-global
mutable task list is modelled by explicit state passing; exceptions are
modelled with `Except String`.
-/

namespace TaskAgent

/-- The four task types of `TaskType` in task.py. -/
inductive TaskType where
  | bug
  | feature
  | improvement
  | task
deriving DecidableEq, Repr

/-- The four task statuses of `TaskStatus` in task.py. -/
inductive TaskStatus where
  | pending
  | in_progress
  | done
  | cancelled
deriving DecidableEq, Repr

/-- The `.value` string of a `TaskType` member. -/
def TaskType.value : TaskType → String
  | .bug => "bug"
  | .feature => "feature"
  | .improvement => "improvement"
  | .task => "task"

/-- The `.value` string of a `TaskStatus` member. -/
def TaskStatus.value : TaskStatus → String
  | .pending => "pending"
  | .in_progress => "in_progress"
  | .done => "done"
  | .cancelled => "cancelled"

/-- The enum lookup `TaskType(s)`: the member whose value is `s`, if any. -/
def parseTaskType (s : String) : Option TaskType :=
  if s = "bug" then some .bug
  else if s = "feature" then some .feature
  else if s = "improvement" then some .improvement
  else if s = "task" then some .task
  else none

/-- The enum lookup `TaskStatus(s)`: the member whose value is `s`, if any. -/
def parseTaskStatus (s : String) : Option TaskStatus :=
  if s = "pending" then some .pending
  else if s = "in_progress" then some .in_progress
  else if s = "done" then some .done
  else if s = "cancelled" then some .cancelled
  else none

/-- Gregorian leap-year rule, as used by Python's `datetime.date`. -/
def isLeapYear (y : Nat) : Bool :=
  (y % 4 == 0 && y % 100 != 0) || y % 400 == 0

/-- Days in a month of the proleptic Gregorian calendar. -/
def daysInMonth (y m : Nat) : Nat :=
  if m = 2 then (if isLeapYear y then 29 else 28)
  else if m = 4 ∨ m = 6 ∨ m = 9 ∨ m = 11 then 30
  else 31

/-- A calendar date as held by Python's `datetime.date` (no time component). -/
structure PyDate where
  year : Nat
  month : Nat
  day : Nat
deriving DecidableEq, Repr

/-- The validity constraints `datetime.date` enforces on construction:
year in 1..9999, month in 1..12, day within the month. -/
def PyDate.Valid (d : PyDate) : Prop :=
  1 ≤ d.year ∧ d.year ≤ 9999 ∧ 1 ≤ d.month ∧ d.month ≤ 12 ∧
    1 ≤ d.day ∧ d.day ≤ daysInMonth d.year d.month

instance (d : PyDate) : Decidable d.Valid := by
  unfold PyDate.Valid; infer_instance

/-- The decimal digit character for `n % 10`. -/
def digitChar (n : Nat) : Char := Char.ofNat (48 + n % 10)

/-- Two-digit zero-padded rendering (`%02d`) for numbers below 100. -/
def pad2 (n : Nat) : String := String.mk [digitChar (n / 10), digitChar n]

/-- Four-digit zero-padded rendering (`%04d`) for numbers below 10000. -/
def pad4 (n : Nat) : String :=
  String.mk [digitChar (n / 1000), digitChar (n / 100), digitChar (n / 10), digitChar n]

/-- `date.isoformat()`: the `YYYY-MM-DD` rendering of a date. -/
def PyDate.isoformat (d : PyDate) : String :=
  pad4 d.year ++ "-" ++ pad2 d.month ++ "-" ++ pad2 d.day

/-- The numeric value of a decimal digit character, if it is one. -/
def digitVal (c : Char) : Option Nat :=
  if 48 ≤ c.toNat ∧ c.toNat ≤ 57 then some (c.toNat - 48) else none

/-- The ValueError message `Invalid isoformat string: ...` that
`date.fromisoformat` raises on a string failing the format parse. -/
def invalidIsoMsg (s : String) : String := "Invalid isoformat string: '" ++ s ++ "'"

/-- The ValueError message of the date constructor for a year outside
1..9999, as `check_date_args` formats it. -/
def yearOutOfRangeMsg (y : Nat) : String := "year " ++ toString y ++ " is out of range"

/-- The ValueError message of the date constructor for a month outside 1..12. -/
def monthOutOfRangeMsg : String := "month must be in 1..12"

/-- The ValueError message of the date constructor for a day outside its month. -/
def dayOutOfRangeMsg : String := "day is out of range for month"

/-- The range checks of `datetime.date(year, month, day)` (CPython's
`check_date_args`): year first, then month, then day, each failing with its
own ValueError; these messages do not repeat the parsed string. -/
def mkDate (y mo dy : Nat) : Except String PyDate :=
  if y < 1 ∨ 9999 < y then .error (yearOutOfRangeMsg y)
  else if mo < 1 ∨ 12 < mo then .error monthOutOfRangeMsg
  else if dy < 1 ∨ daysInMonth y mo < dy then .error dayOutOfRangeMsg
  else .ok ⟨y, mo, dy⟩

/-- The format parse of `date.fromisoformat` on the `YYYY-MM-DD` wire shape:
the raw year/month/day digit values with no range checking, or a format
failure. -/
def parseIsoShape (s : String) : Option (Nat × Nat × Nat) :=
  match s.data with
  | [y1, y2, y3, y4, h1, mo1, mo2, h2, d1, d2] =>
    if h1 = '-' ∧ h2 = '-' then
      match digitVal y1, digitVal y2, digitVal y3, digitVal y4,
            digitVal mo1, digitVal mo2, digitVal d1, digitVal d2 with
      | some a, some b, some c, some e, some f, some g, some p, some q =>
        some (1000 * a + 100 * b + 10 * c + e, 10 * f + g, 10 * p + q)
      | _, _, _, _, _, _, _, _ => none
    else none
  | _ => none

/-- `date.fromisoformat`: a string failing the format parse raises
`Invalid isoformat string: ...`; a shape-valid string is handed to the date
constructor, whose range errors (e.g. `month must be in 1..12` for
`2024-99-99`) pass through unchanged. -/
def fromisoformat (s : String) : Except String PyDate :=
  match parseIsoShape s with
  | none => .error (invalidIsoMsg s)
  | some (y, mo, dy) => mkDate y mo dy

/-- The `Task` dataclass of task.py. -/
structure Task where
  code : String
  title : String
  description : String
  type : TaskType
  start_date : Option PyDate
  due_date : Option PyDate
  status : TaskStatus
deriving DecidableEq, Repr

/-- A JSON leaf as produced by the service: a string or null. -/
inductive JAtom where
  | str : String → JAtom
  | null : JAtom
deriving DecidableEq, Repr

/-- A JSON object with string-or-null values, in key insertion order. -/
abbrev JObj := List (String × JAtom)

/-- A JSON value returned by the dispatcher: an object or a list of objects. -/
inductive JVal where
  | obj : JObj → JVal
  | arr : List JObj → JVal
deriving DecidableEq, Repr

/-- The date entry of a field map: isoformat string, or null when unset. -/
def dumpDate : Option PyDate → JAtom
  | some d => .str d.isoformat
  | none => .null

/-- `Task.to_dict` from task.py: the field map of a task, keys in source order. -/
def Task.to_dict (t : Task) : JObj :=
  [("code", .str t.code),
   ("title", .str t.title),
   ("description", .str t.description),
   ("type", .str t.type.value),
   ("start_date", dumpDate t.start_date),
   ("due_date", dumpDate t.due_date),
   ("status", .str t.status.value)]

/-- JSON string escaping for the characters `json.dumps` must escape in the
strings this service produces. -/
def escapeChar (c : Char) : String :=
  if c = '"' then "\\\"" else if c = '\\' then "\\\\" else String.mk [c]

/-- Escape a whole string for JSON. -/
def escapeString (s : String) : String := String.join (s.data.map escapeChar)

/-- Join strings with a separator (as `", ".join` does). -/
def sepJoin (sep : String) : List String → String
  | [] => ""
  | [x] => x
  | x :: y :: rest => x ++ sep ++ sepJoin sep (y :: rest)

/-- Serialize a JSON leaf. -/
def dumpAtom : JAtom → String
  | .str s => "\"" ++ escapeString s ++ "\""
  | .null => "null"

/-- Serialize a JSON object with `json.dumps` default separators. -/
def dumpObj (o : JObj) : String :=
  "\x7b" ++ sepJoin ", " (o.map fun p => "\"" ++ escapeString p.1 ++ "\": " ++ dumpAtom p.2) ++ "\x7d"

/-- Serialize a dispatcher result as `json.dumps` renders it. -/
def dumpJVal : JVal → String
  | .obj o => dumpObj o
  | .arr xs => "[" ++ sepJoin ", " (xs.map dumpObj) ++ "]"

/-- The `ValueError` message of `update_task`/`delete_task` in todo_service.py. -/
def notFoundMsg (code : String) : String :=
  "No task found with code '" ++ code ++ "'"

/-- `todo_service.add_task`: append a freshly built task to the store and
return it (store passed and returned explicitly). -/
def add_task (tasks : List Task) (code title description : String) (ty : TaskType)
    (start_date due_date : Option PyDate) (status : TaskStatus) : List Task × Task :=
  let t : Task := ⟨code, title, description, ty, start_date, due_date, status⟩
  (tasks ++ [t], t)

/-- Substring test on character lists: does `needle` start `hay`? -/
def isPrefixList : List Char → List Char → Bool
  | [], _ => true
  | _ :: _, [] => false
  | a :: as, b :: bs => a == b && isPrefixList as bs

/-- Substring test on character lists, as Python's `in` on strings. -/
def containsSub (needle : List Char) : List Char → Bool
  | [] => isPrefixList needle []
  | c :: t => isPrefixList needle (c :: t) || containsSub needle t

/-- Python's `keyword in s`: substring containment on strings. -/
def strIn (needle hay : String) : Bool := containsSub needle.data hay.data

/-- `todo_service.get_tasks`: sequential optional filters (status, then type,
then case-insensitive substring search on title or description). -/
def get_tasks (tasks : List Task) (status : Option TaskStatus) (ty : Option TaskType)
    (search : Option String) : List Task :=
  let result := tasks
  let result := match status with
    | some s => result.filter fun t => t.status = s
    | none => result
  let result := match ty with
    | some v => result.filter fun t => t.type = v
    | none => result
  let result := match search with
    | some kw =>
      let keyword := kw.toLower
      result.filter fun t => strIn keyword t.title.toLower || strIn keyword t.description.toLower
    | none => result
  result

/-- The per-field conditional assignments of `todo_service.update_task`:
only the provided (non-None) arguments are applied. -/
def applyFields (t : Task) (title description : Option String) (ty : Option TaskType)
    (start_date due_date : Option PyDate) (status : Option TaskStatus) : Task :=
  let t := match title with | some v => { t with title := v } | none => t
  let t := match description with | some v => { t with description := v } | none => t
  let t := match ty with | some v => { t with type := v } | none => t
  let t := match start_date with | some v => { t with start_date := some v } | none => t
  let t := match due_date with | some v => { t with due_date := some v } | none => t
  let t := match status with | some v => { t with status := v } | none => t
  t

/-- `todo_service.update_task`: linear scan for the first task with the given
code, apply the provided fields in place, or raise the not-found ValueError. -/
def update_task (tasks : List Task) (code : String) (title description : Option String)
    (ty : Option TaskType) (start_date due_date : Option PyDate)
    (status : Option TaskStatus) : Except String (List Task × Task) :=
  match tasks with
  | [] => .error (notFoundMsg code)
  | t :: rest =>
    if t.code = code then
      let t2 := applyFields t title description ty start_date due_date status
      .ok (t2 :: rest, t2)
    else
      match update_task rest code title description ty start_date due_date status with
      | .ok (ts, u) => .ok (t :: ts, u)
      | .error m => .error m

/-- `todo_service.delete_task`: remove the first task with the given code and
return it, or raise the not-found ValueError. -/
def delete_task (tasks : List Task) (code : String) : Except String (List Task × Task) :=
  match tasks with
  | [] => .error (notFoundMsg code)
  | t :: rest =>
    if t.code = code then .ok (rest, t)
    else
      match delete_task rest code with
      | .ok (ts, u) => .ok (t :: ts, u)
      | .error m => .error m

/-- The enum ValueError message, as `TaskType('x')` raises it. -/
def invalidTypeMsg (s : String) : String := "'" ++ s ++ "' is not a valid TaskType"

/-- The enum ValueError message, as `TaskStatus('x')` raises it. -/
def invalidStatusMsg (s : String) : String := "'" ++ s ++ "' is not a valid TaskStatus"

/-- The dispatcher's ValueError message for an unrecognized tool name. -/
def unknownFunctionMsg (name : String) : String := "Unknown function: " ++ name

/-- `TaskType(s)` as the dispatcher uses it: the member, or the ValueError. -/
def coerceType (s : String) : Except String TaskType :=
  match parseTaskType s with
  | some v => .ok v
  | none => .error (invalidTypeMsg s)

/-- `TaskStatus(s)` as the dispatcher uses it: the member, or the ValueError. -/
def coerceStatus (s : String) : Except String TaskStatus :=
  match parseTaskStatus s with
  | some v => .ok v
  | none => .error (invalidStatusMsg s)

/-- `TaskType(s)` on a present argument, `none` when the key is absent. -/
def coerceOptType (o : Option String) : Except String (Option TaskType) :=
  match o with
  | none => .ok none
  | some s =>
    match parseTaskType s with
    | some v => .ok (some v)
    | none => .error (invalidTypeMsg s)

/-- `TaskStatus(s)` on a present argument, `none` when the key is absent. -/
def coerceOptStatus (o : Option String) : Except String (Option TaskStatus) :=
  match o with
  | none => .ok none
  | some s =>
    match parseTaskStatus s with
    | some v => .ok (some v)
    | none => .error (invalidStatusMsg s)

/-- `_parse_date` in agent_service.py: `date.fromisoformat(value) if value
else None` — an absent or empty (falsy) value gives `None`, a nonempty
malformed value raises. -/
def parse_date (value : Option String) : Except String (Option PyDate) :=
  match value with
  | none => .ok none
  | some s =>
    if s = "" then .ok none
    else
      match fromisoformat s with
      | .ok d => .ok (some d)
      | .error m => .error m

/-- The decoded JSON argument bag of an `add_task` tool call: `code` and
`title` are required by the schema, the rest may be absent. -/
structure AddArgs where
  code : String
  title : String
  description : Option String
  type : Option String
  status : Option String
  start_date : Option String
  due_date : Option String
deriving DecidableEq, Repr

/-- The decoded JSON argument bag of a `get_tasks` tool call. -/
structure GetArgs where
  status : Option String
  type : Option String
  search : Option String
deriving DecidableEq, Repr

/-- The decoded JSON argument bag of an `update_task` tool call: only
`code` is required. -/
structure UpdateArgs where
  code : String
  title : Option String
  description : Option String
  type : Option String
  status : Option String
  start_date : Option String
  due_date : Option String
deriving DecidableEq, Repr

/-- A tool call as the dispatcher receives it: the tool name selects the
argument shape; an unrecognized name is kept as `unknown`. -/
inductive ToolRequest where
  | add : AddArgs → ToolRequest
  | get : GetArgs → ToolRequest
  | update : UpdateArgs → ToolRequest
  | delete : String → ToolRequest
  | unknown : String → ToolRequest
deriving DecidableEq, Repr

/-- `_dispatch` in agent_service.py: coerce the raw string arguments in the
source's order, call the matching todo_service function, and return its
JSON-serialisable result; any coercion or store failure is the error.
The store is threaded explicitly in place of the module-global list. -/
def dispatch (r : ToolRequest) (tasks : List Task) : Except String (List Task × JVal) :=
  match r with
  | .add a =>
    match (match a.type with | some s => coerceType s | none => .ok TaskType.task) with
    | .error m => .error m
    | .ok ty =>
      match (match a.status with | some s => coerceStatus s | none => .ok TaskStatus.pending) with
      | .error m => .error m
      | .ok st =>
        match parse_date a.start_date with
        | .error m => .error m
        | .ok sd =>
          match parse_date a.due_date with
          | .error m => .error m
          | .ok dd =>
            let (ts, t) := add_task tasks a.code a.title (a.description.getD "") ty sd dd st
            .ok (ts, .obj t.to_dict)
  | .get g =>
    match coerceOptStatus g.status with
    | .error m => .error m
    | .ok st =>
      match coerceOptType g.type with
      | .error m => .error m
      | .ok ty =>
        .ok (tasks, .arr ((get_tasks tasks st ty g.search).map Task.to_dict))
  | .update a =>
    match coerceOptType a.type with
    | .error m => .error m
    | .ok ty =>
      match coerceOptStatus a.status with
      | .error m => .error m
      | .ok st =>
        match parse_date a.start_date with
        | .error m => .error m
        | .ok sd =>
          match parse_date a.due_date with
          | .error m => .error m
          | .ok dd =>
            match update_task tasks a.code a.title a.description ty sd dd st with
            | .ok (ts, t) => .ok (ts, .obj t.to_dict)
            | .error m => .error m
  | .delete code =>
    match delete_task tasks code with
    | .ok (ts, t) => .ok (ts, .obj t.to_dict)
    | .error m => .error m
  | .unknown name => .error (unknownFunctionMsg name)

/-- One tool-call request of a round-1 model message, with its identifier. -/
structure ToolCall where
  id : String
  request : ToolRequest
deriving DecidableEq, Repr

/-- A `role: tool` result message appended by the agent loop. -/
structure ToolMsg where
  tool_call_id : String
  content : String
deriving DecidableEq, Repr

/-- The structured error result substituted for a failed dispatch. -/
def errorPayload (m : String) : JVal := .obj [("error", .str m)]

/-- One iteration of the agent's tool loop: dispatch the call; on failure
keep the store unchanged and substitute the error payload; either way emit
a result message keyed by the call's id, with `json.dumps` of the result. -/
def execCall (tasks : List Task) (c : ToolCall) : List Task × ToolMsg :=
  match dispatch c.request tasks with
  | .ok (ts, v) => (ts, ⟨c.id, dumpJVal v⟩)
  | .error m => (tasks, ⟨c.id, dumpJVal (errorPayload m)⟩)

/-- The agent's tool loop: execute every requested call in emission order,
threading the store, and collect one result message per call. -/
def execRound (tasks : List Task) : List ToolCall → List Task × List ToolMsg
  | [] => (tasks, [])
  | c :: rest =>
    let step := execCall tasks c
    let tail := execRound step.1 rest
    (tail.1, step.2 :: tail.2)

/-- The round-1 model response: its text content and its tool-call requests
(the empty list models a response with no tool calls). -/
structure ModelMsg where
  content : String
  tool_calls : List ToolCall

/-- The `agent` function of agent_service.py with the two network calls
abstracted: `round1` is the model's first response and `round2` the model's
round-2 synthesis as a function of the appended tool-result messages.
Returns the final reply together with the resulting store. -/
def agent (round1 : ModelMsg) (round2 : List ToolMsg → String) (tasks : List Task) :
    String × List Task :=
  match round1.tool_calls with
  | [] => (round1.content, tasks)
  | c :: rest =>
    let p := execRound tasks (c :: rest)
    (round2 p.2, p.1)

/-- One store-level operation, for stating whole-store invariants over
arbitrary operation sequences. -/
inductive StoreOp where
  | create (code title description : String) (ty : TaskType)
      (sd dd : Option PyDate) (st : TaskStatus)
  | query (st : Option TaskStatus) (ty : Option TaskType) (search : Option String)
  | update (code : String) (title description : Option String) (ty : Option TaskType)
      (sd dd : Option PyDate) (st : Option TaskStatus)
  | delete (code : String)

/-- Run one store operation; a failing update/delete leaves the store as is. -/
def runOp (tasks : List Task) : StoreOp → List Task
  | .create c t d ty sd dd st => (add_task tasks c t d ty sd dd st).1
  | .query _ _ _ => tasks
  | .update c ti de ty sd dd st =>
    match update_task tasks c ti de ty sd dd st with
    | .ok (ts, _) => ts
    | .error _ => tasks
  | .delete c =>
    match delete_task tasks c with
    | .ok (ts, _) => ts
    | .error _ => tasks

/-- Run a sequence of store operations from a given store. -/
def runOps (tasks : List Task) : List StoreOp → List Task
  | [] => tasks
  | op :: rest => runOps (runOp tasks op) rest

/-- Is a supplied `type` argument string outside the enum's value set? -/
def optBadType : Option String → Bool
  | some s => (parseTaskType s).isNone
  | none => false

/-- Is a supplied `status` argument string outside the enum's value set? -/
def optBadStatus : Option String → Bool
  | some s => (parseTaskStatus s).isNone
  | none => false

/-- Is a supplied date argument string invalid (nonempty and rejected by
`date.fromisoformat`, whether for its format or its range)? -/
def optBadDate : Option String → Bool
  | some s => s != "" && (match fromisoformat s with | .error _ => true | .ok _ => false)
  | none => false

/-- Does the request carry a supplied enum argument outside its value set,
or a supplied malformed date string? -/
def hasBadArg : ToolRequest → Bool
  | .add a => optBadType a.type || optBadStatus a.status ||
      optBadDate a.start_date || optBadDate a.due_date
  | .get g => optBadStatus g.status || optBadType g.type
  | .update a => optBadType a.type || optBadStatus a.status ||
      optBadDate a.start_date || optBadDate a.due_date
  | .delete _ => false
  | .unknown _ => false

/-- The string `s` was supplied in `r` as an enum or date argument and is
invalid for that argument. -/
def suppliedBadValue : ToolRequest → String → Prop
  | .add a, s =>
      (a.type = some s ∧ parseTaskType s = none) ∨
      (a.status = some s ∧ parseTaskStatus s = none) ∨
      (a.start_date = some s ∧ s ≠ "" ∧ ∃ m, fromisoformat s = .error m) ∨
      (a.due_date = some s ∧ s ≠ "" ∧ ∃ m, fromisoformat s = .error m)
  | .get g, s =>
      (g.status = some s ∧ parseTaskStatus s = none) ∨
      (g.type = some s ∧ parseTaskType s = none)
  | .update a, s =>
      (a.type = some s ∧ parseTaskType s = none) ∨
      (a.status = some s ∧ parseTaskStatus s = none) ∨
      (a.start_date = some s ∧ s ≠ "" ∧ ∃ m, fromisoformat s = .error m) ∨
      (a.due_date = some s ∧ s ≠ "" ∧ ∃ m, fromisoformat s = .error m)
  | .delete _, _ => False
  | .unknown _, _ => False

/-- Association lookup in a serialized field map. -/
def lookupAtom : JObj → String → Option JAtom
  | [], _ => none
  | (k2, v) :: rest, k => if k2 = k then some v else lookupAtom rest k

/-- Read a string-valued field of a field map. -/
def getStr (o : JObj) (k : String) : Option String :=
  match lookupAtom o k with
  | some (.str s) => some s
  | _ => none

/-- Read a nullable date field of a field map: null is an unset date, a
string is parsed back with `date.fromisoformat`. -/
def getDate (o : JObj) (k : String) : Option (Option PyDate) :=
  match lookupAtom o k with
  | some .null => some none
  | some (.str s) =>
    match fromisoformat s with
    | .ok d => some (some d)
    | .error _ => none
  | none => none

/-- Reconstruct a Task from the fields of its serialized map, parsing dates
back from their `YYYY-MM-DD` strings with `date.fromisoformat`, enums from
their value strings with the enum lookups, and null dates as `None` — the
reconstruction direction of the spec's round-trip property. -/
def taskFromDict (o : JObj) : Option Task :=
  match getStr o "code", getStr o "title", getStr o "description",
        (getStr o "type").bind parseTaskType,
        getDate o "start_date", getDate o "due_date",
        (getStr o "status").bind parseTaskStatus with
  | some c, some ti, some de, some ty, some sd, some dd, some st =>
    some ⟨c, ti, de, ty, sd, dd, st⟩
  | _, _, _, _, _, _, _ => none

/-- Validity of an optional date (Python's `date` objects are always valid). -/
def OptDateValid : Option PyDate → Prop
  | some d => d.Valid
  | none => True

/-- A sample stored task used by concrete witnesses. -/
def sampleTask : Task :=
  ⟨"T1", "Fix login", "important details", .task, some ⟨2024, 1, 2⟩, none, .pending⟩

/-- Sample tasks with a duplicated code, for the delete witness. -/
def taskA1 : Task := ⟨"A", "first", "", .task, none, none, .pending⟩

/-- Second sample task. -/
def taskB : Task := ⟨"B", "second", "", .bug, none, none, .done⟩

/-- Third sample task, sharing its code with `taskA1`. -/
def taskA2 : Task := ⟨"A", "third", "", .improvement, none, none, .in_progress⟩

/-- A concrete two-call round for the agent-loop witness: the first call
carries an invalid status string and fails, the second is a plain query. -/
def roundCalls : List ToolCall :=
  [⟨"call_1", .add ⟨"T2", "Bad", none, none, some "nonsense", none, none⟩⟩,
   ⟨"call_2", .get ⟨none, none, none⟩⟩]

/-! ### Helper lemmas about the store operations -/

theorem applyFields_code (t : Task) (ti de : Option String) (ty : Option TaskType)
    (sd dd : Option PyDate) (st : Option TaskStatus) :
    (applyFields t ti de ty sd dd st).code = t.code := by
  cases ti <;> cases de <;> cases ty <;> cases sd <;> cases dd <;> cases st <;> rfl

theorem applyFields_title_none (t : Task) (de : Option String) (ty : Option TaskType)
    (sd dd : Option PyDate) (st : Option TaskStatus) :
    (applyFields t none de ty sd dd st).title = t.title := by
  cases de <;> cases ty <;> cases sd <;> cases dd <;> cases st <;> rfl

theorem applyFields_description_none (t : Task) (ti : Option String) (ty : Option TaskType)
    (sd dd : Option PyDate) (st : Option TaskStatus) :
    (applyFields t ti none ty sd dd st).description = t.description := by
  cases ti <;> cases ty <;> cases sd <;> cases dd <;> cases st <;> rfl

theorem applyFields_type_none (t : Task) (ti de : Option String)
    (sd dd : Option PyDate) (st : Option TaskStatus) :
    (applyFields t ti de none sd dd st).type = t.type := by
  cases ti <;> cases de <;> cases sd <;> cases dd <;> cases st <;> rfl

theorem applyFields_status_none (t : Task) (ti de : Option String) (ty : Option TaskType)
    (sd dd : Option PyDate) :
    (applyFields t ti de ty sd dd none).status = t.status := by
  cases ti <;> cases de <;> cases ty <;> cases sd <;> cases dd <;> rfl

theorem applyFields_start_none (t : Task) (ti de : Option String) (ty : Option TaskType)
    (dd : Option PyDate) (st : Option TaskStatus) :
    (applyFields t ti de ty none dd st).start_date = t.start_date := by
  cases ti <;> cases de <;> cases ty <;> cases dd <;> cases st <;> rfl

theorem applyFields_due_none (t : Task) (ti de : Option String) (ty : Option TaskType)
    (sd : Option PyDate) (st : Option TaskStatus) :
    (applyFields t ti de ty sd none st).due_date = t.due_date := by
  cases ti <;> cases de <;> cases ty <;> cases sd <;> cases st <;> rfl

theorem applyFields_start_isSome (t : Task) (ti de : Option String) (ty : Option TaskType)
    (sd dd : Option PyDate) (st : Option TaskStatus)
    (h : t.start_date.isSome = true) :
    (applyFields t ti de ty sd dd st).start_date.isSome = true := by
  cases ti <;> cases de <;> cases ty <;> cases sd <;> cases dd <;> cases st <;>
    first | rfl | exact h

theorem applyFields_due_isSome (t : Task) (ti de : Option String) (ty : Option TaskType)
    (sd dd : Option PyDate) (st : Option TaskStatus)
    (h : t.due_date.isSome = true) :
    (applyFields t ti de ty sd dd st).due_date.isSome = true := by
  cases ti <;> cases de <;> cases ty <;> cases sd <;> cases dd <;> cases st <;>
    first | rfl | exact h

theorem update_task_ok_spec (tasks : List Task) (code : String) (ti de : Option String)
    (ty : Option TaskType) (sd dd : Option PyDate) (st : Option TaskStatus)
    (ts : List Task) (u : Task)
    (h : update_task tasks code ti de ty sd dd st = .ok (ts, u)) :
    ∃ pre t post, tasks = pre ++ t :: post ∧ (∀ x ∈ pre, x.code ≠ code) ∧
      t.code = code ∧ u = applyFields t ti de ty sd dd st ∧ ts = pre ++ u :: post := by
  induction tasks generalizing ts u with
  | nil => simp [update_task] at h
  | cons t rest ih =>
    by_cases hc : t.code = code
    · simp only [update_task, if_pos hc] at h
      obtain ⟨h1, h2⟩ := by simpa using h
      exact ⟨[], t, rest, rfl, by simp, hc, h2.symm, by simp [← h1, h2]⟩
    · simp only [update_task, if_neg hc] at h
      cases hrec : update_task rest code ti de ty sd dd st with
      | error m => rw [hrec] at h; simp at h
      | ok p =>
        rw [hrec] at h
        obtain ⟨h1, h2⟩ := by simpa using h
        obtain ⟨pre, tm, post, heq, hpre, hcm, hu, hts⟩ := ih p.1 p.2 (by rw [hrec])
        refine ⟨t :: pre, tm, post, by rw [heq]; rfl, ?_, hcm, by rw [← h2]; exact hu, ?_⟩
        · intro x hx
          rcases List.mem_cons.mp hx with rfl | hx2
          · exact hc
          · exact hpre x hx2
        · rw [← h1, hts, h2]; rfl

theorem update_task_notfound (tasks : List Task) (code : String) (ti de : Option String)
    (ty : Option TaskType) (sd dd : Option PyDate) (st : Option TaskStatus)
    (h : ∀ t ∈ tasks, t.code ≠ code) :
    update_task tasks code ti de ty sd dd st = .error (notFoundMsg code) := by
  induction tasks with
  | nil => rfl
  | cons t rest ih =>
    have hc : ¬(t.code = code) := h t (by simp)
    have hrest := ih fun x hx => h x (List.mem_cons_of_mem _ hx)
    simp [update_task, hc, hrest]

theorem delete_task_found (tasks : List Task) (code : String)
    (h : ∃ t ∈ tasks, t.code = code) :
    ∃ pre t post, tasks = pre ++ t :: post ∧ (∀ x ∈ pre, x.code ≠ code) ∧ t.code = code ∧
      delete_task tasks code = .ok (pre ++ post, t) := by
  induction tasks with
  | nil => simp at h
  | cons t rest ih =>
    by_cases hc : t.code = code
    · exact ⟨[], t, rest, rfl, by simp, hc, by simp [delete_task, hc]⟩
    · obtain ⟨x, hx, hxc⟩ := h
      rcases List.mem_cons.mp hx with rfl | hx2
      · exact absurd hxc hc
      · obtain ⟨pre, tm, post, heq, hpre, hcm, hdel⟩ := ih ⟨x, hx2, hxc⟩
        refine ⟨t :: pre, tm, post, by rw [heq]; rfl, ?_, hcm, ?_⟩
        · intro y hy
          rcases List.mem_cons.mp hy with rfl | hy2
          · exact hc
          · exact hpre y hy2
        · simp [delete_task, hc, hdel]

theorem delete_task_notfound (tasks : List Task) (code : String)
    (h : ∀ t ∈ tasks, t.code ≠ code) :
    delete_task tasks code = .error (notFoundMsg code) := by
  induction tasks with
  | nil => rfl
  | cons t rest ih =>
    have hc : ¬(t.code = code) := h t (by simp)
    have hrest := ih fun x hx => h x (List.mem_cons_of_mem _ hx)
    simp [delete_task, hc, hrest]

/-! ### The claims -/

/-- C6: when some stored task has code `c`, `delete(c)` removes exactly the
first task (in insertion order) whose code is `c`, returns that task's
pre-deletion field values, shrinks the store by exactly one, and keeps every
other task — later duplicates of `c` included — in its relative order. -/
theorem C6_delete_removes_first_match (tasks : List Task) (code : String)
    (h : ∃ t ∈ tasks, t.code = code) :
    ∃ pre t post, tasks = pre ++ t :: post ∧ (∀ x ∈ pre, x.code ≠ code) ∧ t.code = code ∧
      delete_task tasks code = .ok (pre ++ post, t) ∧
      (pre ++ post).length + 1 = tasks.length := by
  obtain ⟨pre, t, post, heq, hpre, hc, hdel⟩ := delete_task_found tasks code h
  refine ⟨pre, t, post, heq, hpre, hc, hdel, ?_⟩
  rw [heq]
  simp
  omega

/-- Witness for C6 at a concrete store with a duplicated code. -/
theorem C6_witness :
    (∃ t ∈ [taskA1, taskB, taskA2], t.code = "A") ∧
    (∃ pre t post, [taskA1, taskB, taskA2] = pre ++ t :: post ∧
      (∀ x ∈ pre, x.code ≠ "A") ∧ t.code = "A" ∧
      delete_task [taskA1, taskB, taskA2] "A" = .ok (pre ++ post, t) ∧
      (pre ++ post).length + 1 = ([taskA1, taskB, taskA2] : List Task).length) :=
  ⟨⟨taskA1, by simp, rfl⟩,
    C6_delete_removes_first_match [taskA1, taskB, taskA2] "A" ⟨taskA1, by simp, rfl⟩⟩

/-- C5: update and delete on a code that matches no stored task fail with the
not-found ValueError and leave the store unchanged; the agent loop converts
such a dispatch failure into the structured payload
`("error", "No task found with code ...")` instead of letting it escape. -/
theorem C5_notfound_becomes_error_payload (tasks : List Task) (code cid : String)
    (ti de : Option String) (ty : Option TaskType) (sd dd : Option PyDate)
    (st : Option TaskStatus) (h : ∀ t ∈ tasks, t.code ≠ code) :
    update_task tasks code ti de ty sd dd st = .error (notFoundMsg code) ∧
    delete_task tasks code = .error (notFoundMsg code) ∧
    execCall tasks ⟨cid, .update ⟨code, none, none, none, none, none, none⟩⟩ =
      (tasks, ⟨cid, dumpJVal (errorPayload (notFoundMsg code))⟩) ∧
    execCall tasks ⟨cid, .delete code⟩ =
      (tasks, ⟨cid, dumpJVal (errorPayload (notFoundMsg code))⟩) := by
  have hd := delete_task_notfound tasks code h
  have hu0 := update_task_notfound tasks code none none none none none none h
  refine ⟨update_task_notfound tasks code ti de ty sd dd st h, hd, ?_, ?_⟩
  · simp [execCall, dispatch, coerceOptType, coerceOptStatus, parse_date, hu0]
  · simp [execCall, dispatch, hd]

/-- Witness for C5: `update_task(code="NOPE")` against a store holding only
`sampleTask` yields the exact error payload of end-to-end scenario C. -/
theorem C5_witness :
    (∀ t ∈ [sampleTask], t.code ≠ "NOPE") ∧
    (update_task [sampleTask] "NOPE" none none none none none none =
        .error (notFoundMsg "NOPE") ∧
      delete_task [sampleTask] "NOPE" = .error (notFoundMsg "NOPE") ∧
      execCall [sampleTask] ⟨"call_1", .update ⟨"NOPE", none, none, none, none, none, none⟩⟩ =
        ([sampleTask], ⟨"call_1", dumpJVal (errorPayload (notFoundMsg "NOPE"))⟩) ∧
      execCall [sampleTask] ⟨"call_1", .delete "NOPE"⟩ =
        ([sampleTask], ⟨"call_1", dumpJVal (errorPayload (notFoundMsg "NOPE"))⟩)) :=
  ⟨by decide,
    C5_notfound_becomes_error_payload [sampleTask] "NOPE" "call_1"
      none none none none none none (by decide)⟩

theorem isPrefixList_iff (xs ys : List Char) :
    isPrefixList xs ys = true ↔ ∃ r, ys = xs ++ r := by
  induction xs generalizing ys with
  | nil => simp [isPrefixList]
  | cons a as ih =>
    cases ys with
    | nil => simp [isPrefixList]
    | cons b bs =>
      simp only [isPrefixList, Bool.and_eq_true, beq_iff_eq, ih, List.cons_append,
        List.cons.injEq]
      constructor
      · rintro ⟨rfl, r, rfl⟩
        exact ⟨r, rfl, rfl⟩
      · rintro ⟨r, rfl, rfl⟩
        exact ⟨rfl, r, rfl⟩

theorem containsSub_iff (needle hay : List Char) :
    containsSub needle hay = true ↔ ∃ l r, hay = l ++ needle ++ r := by
  induction hay with
  | nil =>
    simp only [containsSub, isPrefixList_iff]
    constructor
    · rintro ⟨r, hr⟩
      exact ⟨[], r, by simpa using hr⟩
    · rintro ⟨l, r, hlr⟩
      have h := hlr.symm
      simp only [List.append_assoc, List.append_eq_nil] at h
      exact ⟨[], by simp [h.2.1]⟩
  | cons c t ih =>
    simp only [containsSub, Bool.or_eq_true, isPrefixList_iff, ih]
    constructor
    · rintro (⟨r, hr⟩ | ⟨l, r, hlr⟩)
      · exact ⟨[], r, by simpa using hr⟩
      · exact ⟨c :: l, r, by simp [hlr]⟩
    · rintro ⟨l, r, hlr⟩
      cases l with
      | nil => exact Or.inl ⟨r, by simpa using hlr⟩
      | cons d l2 =>
        obtain ⟨rfl, h2⟩ := by simpa using hlr
        exact Or.inr ⟨l2, r, by rw [List.append_assoc]; exact h2⟩

theorem strIn_iff (needle hay : String) :
    strIn needle hay = true ↔ ∃ l r, hay.data = l ++ needle.data ++ r :=
  containsSub_iff needle.data hay.data

theorem filter_chain2 {α : Type} (f1 f2 : α → Bool) (l : List α) :
    (l.filter f1).filter f2 = l.filter fun a => f1 a && f2 a := by
  rw [List.filter_filter]
  apply List.filter_congr
  intro x _
  cases f1 x <;> cases f2 x <;> rfl

theorem filter_chain3 {α : Type} (f1 f2 f3 : α → Bool) (l : List α) :
    ((l.filter f1).filter f2).filter f3 = l.filter fun a => f1 a && f2 a && f3 a := by
  rw [List.filter_filter, List.filter_filter]
  apply List.filter_congr
  intro x _
  cases f1 x <;> cases f2 x <;> cases f3 x <;> rfl

/-- C7: the query's filters apply conjunctively in the order status, type,
substring search — the result is a single conjunctive filter over the
store — a task passes the search filter exactly when the case-folded search
string is a substring of its case-folded title or of its case-folded
description, and absent filters are no-ops. -/
theorem C7_get_tasks_conjunctive_filters (tasks : List Task) (st : Option TaskStatus)
    (ty : Option TaskType) (se : Option String) :
    (get_tasks tasks st ty se = tasks.filter fun t =>
      (match st with | some s => decide (t.status = s) | none => true) &&
      (match ty with | some v => decide (t.type = v) | none => true) &&
      (match se with
       | some kw => strIn kw.toLower t.title.toLower || strIn kw.toLower t.description.toLower
       | none => true)) ∧
    ∀ t, t ∈ get_tasks tasks st ty se ↔
      t ∈ tasks ∧ (∀ s, st = some s → t.status = s) ∧ (∀ v, ty = some v → t.type = v) ∧
      ∀ kw, se = some kw →
        (∃ l r, t.title.toLower.data = l ++ kw.toLower.data ++ r) ∨
        (∃ l r, t.description.toLower.data = l ++ kw.toLower.data ++ r) := by
  constructor
  · cases st <;> cases ty <;> cases se <;>
      simp [get_tasks, filter_chain2, filter_chain3] <;>
      (apply List.filter_congr; intro x _; ac_rfl)
  · intro t
    cases st <;> cases ty <;> cases se <;>
      simp [get_tasks, List.mem_filter, strIn_iff, and_assoc] <;>
      itauto

/-- What a successful update dispatch does to the store, field by field:
the shared workhorse behind the update-related claims. -/
theorem dispatch_update_ok_spec (a : UpdateArgs) (tasks ts : List Task) (v : JVal)
    (hok : dispatch (.update a) tasks = .ok (ts, v)) :
    ∃ pre t post t2, tasks = pre ++ t :: post ∧ ts = pre ++ t2 :: post ∧
      (∀ x ∈ pre, x.code ≠ a.code) ∧ t.code = a.code ∧ t2.code = t.code ∧
      (a.title = none → t2.title = t.title) ∧
      (a.description = none → t2.description = t.description) ∧
      (a.type = none → t2.type = t.type) ∧
      (a.status = none → t2.status = t.status) ∧
      ((a.start_date = none ∨ a.start_date = some "") → t2.start_date = t.start_date) ∧
      ((a.due_date = none ∨ a.due_date = some "") → t2.due_date = t.due_date) ∧
      (t.start_date.isSome = true → t2.start_date.isSome = true) ∧
      (t.due_date.isSome = true → t2.due_date.isSome = true) := by
  simp only [dispatch] at hok
  cases hty : coerceOptType a.type with
  | error m => rw [hty] at hok; simp at hok
  | ok ty =>
    rw [hty] at hok
    cases hst : coerceOptStatus a.status with
    | error m => rw [hst] at hok; simp at hok
    | ok st =>
      rw [hst] at hok
      cases hsd : parse_date a.start_date with
      | error m => rw [hsd] at hok; simp at hok
      | ok sd =>
        rw [hsd] at hok
        cases hdd : parse_date a.due_date with
        | error m => rw [hdd] at hok; simp at hok
        | ok dd =>
          rw [hdd] at hok
          dsimp only at hok
          cases hup : update_task tasks a.code a.title a.description ty sd dd st with
          | error m => rw [hup] at hok; simp at hok
          | ok p =>
            rw [hup] at hok
            obtain ⟨hts, hv⟩ := by simpa using hok
            obtain ⟨pre, t, post, heq, hpre, hcode, hu, hts2⟩ :=
              update_task_ok_spec tasks a.code a.title a.description ty sd dd st p.1 p.2
                (by rw [hup])
            refine ⟨pre, t, post, p.2, heq, by rw [← hts, hts2, hu], hpre, hcode,
              by rw [hu]; exact applyFields_code t _ _ _ _ _ _, ?_, ?_, ?_, ?_, ?_, ?_, ?_, ?_⟩
            · intro h
              rw [hu, h]
              exact applyFields_title_none t _ _ _ _ _
            · intro h
              rw [hu, h]
              exact applyFields_description_none t _ _ _ _ _
            · intro h
              rw [h] at hty
              simp [coerceOptType] at hty
              rw [hu, ← hty]
              exact applyFields_type_none t _ _ _ _ _
            · intro h
              rw [h] at hst
              simp [coerceOptStatus] at hst
              rw [hu, ← hst]
              exact applyFields_status_none t _ _ _ _ _
            · intro h
              have hnone : sd = none := by
                rcases h with h | h <;> rw [h] at hsd <;> simp [parse_date] at hsd <;>
                  exact hsd.symm
              rw [hu, hnone]
              exact applyFields_start_none t _ _ _ _ _
            · intro h
              have hnone : dd = none := by
                rcases h with h | h <;> rw [h] at hdd <;> simp [parse_date] at hdd <;>
                  exact hdd.symm
              rw [hu, hnone]
              exact applyFields_due_none t _ _ _ _ _
            · intro h
              rw [hu]
              exact applyFields_start_isSome t _ _ _ _ _ _ h
            · intro h
              rw [hu]
              exact applyFields_due_isSome t _ _ _ _ _ _ h

/-- C2 (amended): the update dispatcher drops every argument whose coerced
value is None (keeping `code`), so a successful update rewrites exactly the
first code match: unsupplied fields keep their prior values, empty-string or
absent date arguments leave the stored dates unchanged, a set date can never
be cleared back to None, and every other task is untouched.  (String fields
such as description CAN still be set to the empty string by supplying "",
which is not None — see the counterexample.) -/
theorem C2_update_keeps_unsupplied_fields (a : UpdateArgs) (tasks ts : List Task) (v : JVal)
    (hok : dispatch (.update a) tasks = .ok (ts, v)) :
    ∃ pre t post t2, tasks = pre ++ t :: post ∧ ts = pre ++ t2 :: post ∧
      (∀ x ∈ pre, x.code ≠ a.code) ∧ t.code = a.code ∧ t2.code = t.code ∧
      (a.title = none → t2.title = t.title) ∧
      (a.description = none → t2.description = t.description) ∧
      (a.type = none → t2.type = t.type) ∧
      (a.status = none → t2.status = t.status) ∧
      ((a.start_date = none ∨ a.start_date = some "") → t2.start_date = t.start_date) ∧
      ((a.due_date = none ∨ a.due_date = some "") → t2.due_date = t.due_date) ∧
      (t.start_date.isSome = true → t2.start_date.isSome = true) ∧
      (t.due_date.isSome = true → t2.due_date.isSome = true) :=
  dispatch_update_ok_spec a tasks ts v hok

/-- C2 counterexample: a caller CAN clear an optional field to empty through
update_task — supplying description="" (a value that is not None, so the
None-filter keeps it) overwrites the stored description "important details"
with the empty string, refuting the claim's "no caller can use update_task to
clear a date or any optional field to empty/null". -/
theorem C2_counterexample_description_cleared_to_empty :
    sampleTask.description = "important details" ∧
    Except.map (fun p => p.1.map Task.description)
        (dispatch (.update ⟨"T1", none, some "", none, none, none, none⟩) [sampleTask]) =
      .ok [""] :=
  ⟨rfl, rfl⟩

/-- Witness for C2 at a concrete update that supplies only a new title. -/
theorem C2_witness :
    dispatch (.update ⟨"T1", some "New title", none, none, none, none, none⟩) [sampleTask] =
      .ok ([⟨"T1", "New title", "important details", .task, some ⟨2024, 1, 2⟩, none, .pending⟩],
        .obj [("code", .str "T1"), ("title", .str "New title"),
          ("description", .str "important details"), ("type", .str "task"),
          ("start_date", .str "2024-01-02"), ("due_date", .null),
          ("status", .str "pending")]) ∧
    (∃ pre t post t2, [sampleTask] = pre ++ t :: post ∧
      [(⟨"T1", "New title", "important details", .task, some ⟨2024, 1, 2⟩, none,
        .pending⟩ : Task)] = pre ++ t2 :: post ∧
      (∀ x ∈ pre, x.code ≠ "T1") ∧ t.code = "T1" ∧ t2.code = t.code ∧
      (some "New title" = (none : Option String) → t2.title = t.title) ∧
      ((none : Option String) = none → t2.description = t.description) ∧
      ((none : Option String) = none → t2.type = t.type) ∧
      ((none : Option String) = none → t2.status = t.status) ∧
      (((none : Option String) = none ∨ (none : Option String) = some "") →
        t2.start_date = t.start_date) ∧
      (((none : Option String) = none ∨ (none : Option String) = some "") →
        t2.due_date = t.due_date) ∧
      (t.start_date.isSome = true → t2.start_date.isSome = true) ∧
      (t.due_date.isSome = true → t2.due_date.isSome = true)) :=
  ⟨rfl,
    C2_update_keeps_unsupplied_fields ⟨"T1", some "New title", none, none, none, none, none⟩
      [sampleTask]
      [⟨"T1", "New title", "important details", .task, some ⟨2024, 1, 2⟩, none, .pending⟩]
      (.obj [("code", .str "T1"), ("title", .str "New title"),
        ("description", .str "important details"), ("type", .str "task"),
        ("start_date", .str "2024-01-02"), ("due_date", .null),
        ("status", .str "pending")])
      rfl⟩

/-- C3 counterexample: add_task with the invalid type string "bogus" fails
with the enum ValueError and creates nothing, instead of defaulting the
created task's type to `task` as the claim states for invalid strings. -/
theorem C3_counterexample_invalid_type_fails :
    dispatch (.add ⟨"T9", "X", none, some "bogus", none, none, none⟩) [] =
      .error (invalidTypeMsg "bogus") :=
  rfl

/-- C3 (amended): for add_task, an ABSENT type defaults to `task`, while an
invalid type string fails the whole call with the enum ValueError (no task is
created); an absent status defaults to `pending`; absent dates become None;
a successful call appends the created Task and returns its field map. -/
theorem C3_add_defaults (a : AddArgs) (tasks : List Task) :
    (∀ ts v, dispatch (.add a) tasks = .ok (ts, v) →
      ∃ t, ts = tasks ++ [t] ∧ v = .obj t.to_dict ∧
        t.code = a.code ∧ t.title = a.title ∧
        (a.type = none → t.type = .task) ∧
        (a.status = none → t.status = .pending) ∧
        (a.start_date = none → t.start_date = none) ∧
        (a.due_date = none → t.due_date = none)) ∧
    (∀ s, a.type = some s → parseTaskType s = none →
      dispatch (.add a) tasks = .error (invalidTypeMsg s)) := by
  constructor
  · intro ts v hok
    simp only [dispatch] at hok
    cases hty : (match a.type with | some s => coerceType s | none => .ok TaskType.task) with
    | error m => rw [hty] at hok; simp at hok
    | ok ty =>
      rw [hty] at hok
      cases hst : (match a.status with
          | some s => coerceStatus s | none => .ok TaskStatus.pending) with
      | error m => rw [hst] at hok; simp at hok
      | ok st =>
        rw [hst] at hok
        cases hsd : parse_date a.start_date with
        | error m => rw [hsd] at hok; simp at hok
        | ok sd =>
          rw [hsd] at hok
          cases hdd : parse_date a.due_date with
          | error m => rw [hdd] at hok; simp at hok
          | ok dd =>
            rw [hdd] at hok
            simp only [add_task] at hok
            obtain ⟨hts, hv⟩ := by simpa using hok
            refine ⟨⟨a.code, a.title, a.description.getD "", ty, sd, dd, st⟩,
              hts.symm, hv.symm, rfl, rfl, ?_, ?_, ?_, ?_⟩
            · intro h
              rw [h] at hty
              simpa using hty.symm
            · intro h
              rw [h] at hst
              simpa using hst.symm
            · intro h
              rw [h] at hsd
              simpa [parse_date] using hsd.symm
            · intro h
              rw [h] at hdd
              simpa [parse_date] using hdd.symm
  · intro s hs hp
    simp [dispatch, hs, coerceType, hp]

/-- C10: `_parse_date` returns None both for an absent and for an
empty-string argument; consequently add_task with empty-string dates creates
the task with those dates unset, and update_task with empty-string dates
leaves the stored dates unchanged — the empty string is never rejected as a
malformed date. -/
theorem C10_empty_date_string_means_unset :
    parse_date none = .ok none ∧ parse_date (some "") = .ok none ∧
    (∀ (a : AddArgs) (tasks ts : List Task) (v : JVal),
      (a.start_date = none ∨ a.start_date = some "") →
      (a.due_date = none ∨ a.due_date = some "") →
      dispatch (.add a) tasks = .ok (ts, v) →
      ∃ t, ts = tasks ++ [t] ∧ t.start_date = none ∧ t.due_date = none) ∧
    (∀ (a : UpdateArgs) (tasks ts : List Task) (v : JVal),
      (a.start_date = none ∨ a.start_date = some "") →
      (a.due_date = none ∨ a.due_date = some "") →
      dispatch (.update a) tasks = .ok (ts, v) →
      ∃ pre t post t2, tasks = pre ++ t :: post ∧ ts = pre ++ t2 :: post ∧
        t2.start_date = t.start_date ∧ t2.due_date = t.due_date) := by
  refine ⟨rfl, rfl, ?_, ?_⟩
  · intro a tasks ts v hsd0 hdd0 hok
    have hsd : parse_date a.start_date = .ok none := by
      rcases hsd0 with h | h <;> simp [h, parse_date]
    have hdd : parse_date a.due_date = .ok none := by
      rcases hdd0 with h | h <;> simp [h, parse_date]
    simp only [dispatch] at hok
    cases hty : (match a.type with | some s => coerceType s | none => .ok TaskType.task) with
    | error m => rw [hty] at hok; simp at hok
    | ok ty =>
      rw [hty] at hok
      cases hst : (match a.status with
          | some s => coerceStatus s | none => .ok TaskStatus.pending) with
      | error m => rw [hst] at hok; simp at hok
      | ok st =>
        rw [hst, hsd, hdd] at hok
        simp only [add_task] at hok
        obtain ⟨hts, hv⟩ := by simpa using hok
        exact ⟨⟨a.code, a.title, a.description.getD "", ty, none, none, st⟩,
          hts.symm, rfl, rfl⟩
  · intro a tasks ts v hsd0 hdd0 hok
    obtain ⟨pre, t, post, t2, heq, hts, hpre, hcode, hc2, hti, hde, hty, hst, hs, hd,
      hs2, hd2⟩ := dispatch_update_ok_spec a tasks ts v hok
    exact ⟨pre, t, post, t2, heq, hts, hs hsd0, hd hdd0⟩

theorem optBadType_eq_true (o : Option String) :
    optBadType o = true ↔ ∃ s, o = some s ∧ parseTaskType s = none := by
  cases o <;> simp [optBadType, Option.isNone_iff_eq_none]

theorem optBadStatus_eq_true (o : Option String) :
    optBadStatus o = true ↔ ∃ s, o = some s ∧ parseTaskStatus s = none := by
  cases o <;> simp [optBadStatus, Option.isNone_iff_eq_none]

theorem optBadDate_eq_true (o : Option String) :
    optBadDate o = true ↔ ∃ s, o = some s ∧ s ≠ "" ∧ ∃ m, fromisoformat s = .error m := by
  cases o with
  | none => simp [optBadDate]
  | some s =>
    constructor
    · intro h
      simp only [optBadDate, Bool.and_eq_true, bne_iff_ne] at h
      obtain ⟨hne, hm⟩ := h
      cases hv : fromisoformat s with
      | error m => exact ⟨s, rfl, hne, m, hv⟩
      | ok d => rw [hv] at hm; exact absurd hm (by simp)
    · rintro ⟨s2, hs2, hne, m, hv⟩
      injection hs2 with hs2
      subst hs2
      simp [optBadDate, hne, hv]

theorem coerceDefType_ok (o : Option String) (h : optBadType o = false) :
    ∃ v, (match o with | some s => coerceType s | none => .ok TaskType.task) = .ok v := by
  cases o with
  | none => exact ⟨.task, rfl⟩
  | some s =>
    cases hv : parseTaskType s with
    | none => rw [optBadType, hv] at h; simp at h
    | some v => exact ⟨v, by simp [coerceType, hv]⟩

theorem coerceDefStatus_ok (o : Option String) (h : optBadStatus o = false) :
    ∃ v, (match o with | some s => coerceStatus s | none => .ok TaskStatus.pending) = .ok v := by
  cases o with
  | none => exact ⟨.pending, rfl⟩
  | some s =>
    cases hv : parseTaskStatus s with
    | none => rw [optBadStatus, hv] at h; simp at h
    | some v => exact ⟨v, by simp [coerceStatus, hv]⟩

theorem coerceOptType_ok (o : Option String) (h : optBadType o = false) :
    ∃ v, coerceOptType o = .ok v := by
  cases o with
  | none => exact ⟨none, rfl⟩
  | some s =>
    cases hv : parseTaskType s with
    | none => rw [optBadType, hv] at h; simp at h
    | some v => exact ⟨some v, by simp [coerceOptType, hv]⟩

theorem coerceOptStatus_ok (o : Option String) (h : optBadStatus o = false) :
    ∃ v, coerceOptStatus o = .ok v := by
  cases o with
  | none => exact ⟨none, rfl⟩
  | some s =>
    cases hv : parseTaskStatus s with
    | none => rw [optBadStatus, hv] at h; simp at h
    | some v => exact ⟨some v, by simp [coerceOptStatus, hv]⟩

theorem parse_date_ok (o : Option String) (h : optBadDate o = false) :
    ∃ v, parse_date o = .ok v := by
  cases o with
  | none => exact ⟨none, rfl⟩
  | some s =>
    by_cases hs : s = ""
    · exact ⟨none, by simp [parse_date, hs]⟩
    · cases hv : fromisoformat s with
      | error m => simp [optBadDate, hs, hv] at h
      | ok d => exact ⟨some d, by simp [parse_date, hs, hv]⟩

theorem parse_date_error (s m : String) (hs : s ≠ "") (hp : fromisoformat s = .error m) :
    parse_date (some s) = .error m := by
  simp [parse_date, hs, hp]

/-- C4 (amended): a dispatched call carrying any supplied enum string
outside its enum's value set, or any supplied invalid (nonempty) date
string, fails with a ValueError, and the agent-loop step for that call
leaves the task store completely unchanged — no partial application of the
call's store mutation ever happens.  Enum failures name the offending value;
an invalid date fails with exactly the error `date.fromisoformat` raises for
it, which for a shape-valid out-of-range string is the date constructor's
range message and does NOT repeat the value (see the counterexample). -/
theorem C4_invalid_argument_fails_atomically (r : ToolRequest) (tasks : List Task)
    (h : hasBadArg r = true) :
    ∃ m s, dispatch r tasks = .error m ∧ suppliedBadValue r s ∧
      (m = invalidTypeMsg s ∨ m = invalidStatusMsg s ∨ fromisoformat s = .error m) ∧
      ∀ cid, execCall tasks ⟨cid, r⟩ = (tasks, ⟨cid, dumpJVal (errorPayload m)⟩) := by
  have execOf : ∀ m, dispatch r tasks = .error m →
      ∀ cid, execCall tasks ⟨cid, r⟩ = (tasks, ⟨cid, dumpJVal (errorPayload m)⟩) := by
    intro m hm cid
    simp [execCall, hm]
  cases r with
  | add a =>
    simp only [hasBadArg, Bool.or_eq_true] at h
    by_cases h1 : optBadType a.type = true
    · obtain ⟨s, hs, hp⟩ := (optBadType_eq_true a.type).mp h1
      have hd : dispatch (.add a) tasks = .error (invalidTypeMsg s) := by
        simp [dispatch, hs, coerceType, hp]
      exact ⟨_, s, hd, Or.inl ⟨hs, hp⟩, Or.inl rfl, execOf _ hd⟩
    · obtain ⟨ty, hty⟩ := coerceDefType_ok a.type (by simpa using h1)
      by_cases h2 : optBadStatus a.status = true
      · obtain ⟨s, hs, hp⟩ := (optBadStatus_eq_true a.status).mp h2
        have hd : dispatch (.add a) tasks = .error (invalidStatusMsg s) := by
          simp [dispatch, hty, hs, coerceStatus, hp]
        exact ⟨_, s, hd, Or.inr (Or.inl ⟨hs, hp⟩), Or.inr (Or.inl rfl), execOf _ hd⟩
      · obtain ⟨st, hst⟩ := coerceDefStatus_ok a.status (by simpa using h2)
        by_cases h3 : optBadDate a.start_date = true
        · obtain ⟨s, hs, hne, m, hp⟩ := (optBadDate_eq_true a.start_date).mp h3
          have hd : dispatch (.add a) tasks = .error m := by
            simp [dispatch, hty, hst, hs, parse_date_error s m hne hp]
          exact ⟨m, s, hd, Or.inr (Or.inr (Or.inl ⟨hs, hne, m, hp⟩)),
            Or.inr (Or.inr hp), execOf _ hd⟩
        · obtain ⟨sd, hsd⟩ := parse_date_ok a.start_date (by simpa using h3)
          by_cases h4 : optBadDate a.due_date = true
          · obtain ⟨s, hs, hne, m, hp⟩ := (optBadDate_eq_true a.due_date).mp h4
            have hd : dispatch (.add a) tasks = .error m := by
              simp [dispatch, hty, hst, hsd, hs, parse_date_error s m hne hp]
            exact ⟨m, s, hd, Or.inr (Or.inr (Or.inr ⟨hs, hne, m, hp⟩)),
              Or.inr (Or.inr hp), execOf _ hd⟩
          · rcases h with (((h | h) | h) | h)
            · exact absurd h h1
            · exact absurd h h2
            · exact absurd h h3
            · exact absurd h h4
  | get g =>
    simp only [hasBadArg, Bool.or_eq_true] at h
    by_cases h1 : optBadStatus g.status = true
    · obtain ⟨s, hs, hp⟩ := (optBadStatus_eq_true g.status).mp h1
      have hd : dispatch (.get g) tasks = .error (invalidStatusMsg s) := by
        simp [dispatch, hs, coerceOptStatus, hp]
      exact ⟨_, s, hd, Or.inl ⟨hs, hp⟩, Or.inr (Or.inl rfl), execOf _ hd⟩
    · obtain ⟨st, hst⟩ := coerceOptStatus_ok g.status (by simpa using h1)
      by_cases h2 : optBadType g.type = true
      · obtain ⟨s, hs, hp⟩ := (optBadType_eq_true g.type).mp h2
        have hd : dispatch (.get g) tasks = .error (invalidTypeMsg s) := by
          simp [dispatch, hst, hs, coerceOptType, hp]
        exact ⟨_, s, hd, Or.inr ⟨hs, hp⟩, Or.inl rfl, execOf _ hd⟩
      · rcases h with h | h
        · exact absurd h h1
        · exact absurd h h2
  | update a =>
    simp only [hasBadArg, Bool.or_eq_true] at h
    by_cases h1 : optBadType a.type = true
    · obtain ⟨s, hs, hp⟩ := (optBadType_eq_true a.type).mp h1
      have hd : dispatch (.update a) tasks = .error (invalidTypeMsg s) := by
        simp [dispatch, hs, coerceOptType, hp]
      exact ⟨_, s, hd, Or.inl ⟨hs, hp⟩, Or.inl rfl, execOf _ hd⟩
    · obtain ⟨ty, hty⟩ := coerceOptType_ok a.type (by simpa using h1)
      by_cases h2 : optBadStatus a.status = true
      · obtain ⟨s, hs, hp⟩ := (optBadStatus_eq_true a.status).mp h2
        have hd : dispatch (.update a) tasks = .error (invalidStatusMsg s) := by
          simp [dispatch, hty, hs, coerceOptStatus, hp]
        exact ⟨_, s, hd, Or.inr (Or.inl ⟨hs, hp⟩), Or.inr (Or.inl rfl), execOf _ hd⟩
      · obtain ⟨st, hst⟩ := coerceOptStatus_ok a.status (by simpa using h2)
        by_cases h3 : optBadDate a.start_date = true
        · obtain ⟨s, hs, hne, m, hp⟩ := (optBadDate_eq_true a.start_date).mp h3
          have hd : dispatch (.update a) tasks = .error m := by
            simp [dispatch, hty, hst, hs, parse_date_error s m hne hp]
          exact ⟨m, s, hd, Or.inr (Or.inr (Or.inl ⟨hs, hne, m, hp⟩)),
            Or.inr (Or.inr hp), execOf _ hd⟩
        · obtain ⟨sd, hsd⟩ := parse_date_ok a.start_date (by simpa using h3)
          by_cases h4 : optBadDate a.due_date = true
          · obtain ⟨s, hs, hne, m, hp⟩ := (optBadDate_eq_true a.due_date).mp h4
            have hd : dispatch (.update a) tasks = .error m := by
              simp [dispatch, hty, hst, hsd, hs, parse_date_error s m hne hp]
            exact ⟨m, s, hd, Or.inr (Or.inr (Or.inr ⟨hs, hne, m, hp⟩)),
              Or.inr (Or.inr hp), execOf _ hd⟩
          · rcases h with (((h | h) | h) | h)
            · exact absurd h h1
            · exact absurd h h2
            · exact absurd h h3
            · exact absurd h h4
  | delete c => simp [hasBadArg] at h
  | unknown n => simp [hasBadArg] at h

/-- C4 counterexample: a shape-valid but out-of-range date such as
"2024-99-99" fails with the date constructor's range error
`month must be in 1..12` — a message that names neither the supplied value
nor the date field — refuting the claim that every such failure carries a
ValidationError identifying the offending field and value. -/
theorem C4_counterexample_range_date_message_names_no_value :
    dispatch (.update ⟨"T1", none, none, none, none, some "2024-99-99", none⟩)
        [sampleTask] = .error monthOutOfRangeMsg ∧
    monthOutOfRangeMsg = "month must be in 1..12" ∧
    strIn "2024-99-99" monthOutOfRangeMsg = false ∧
    strIn "date" monthOutOfRangeMsg = false :=
  ⟨rfl, rfl, rfl, rfl⟩

/-- Witness for C4: an update supplying the invalid status string "nonsense"
and an out-of-range date fails with the status ValueError (status is coerced
before the dates) and leaves the concrete one-task store untouched. -/
theorem C4_witness :
    hasBadArg (.update ⟨"T1", none, none, none, some "nonsense", some "2024-99-99", none⟩) =
      true ∧
    (∃ m s,
      dispatch (.update ⟨"T1", none, none, none, some "nonsense", some "2024-99-99", none⟩)
          [sampleTask] = .error m ∧
      suppliedBadValue
        (.update ⟨"T1", none, none, none, some "nonsense", some "2024-99-99", none⟩) s ∧
      (m = invalidTypeMsg s ∨ m = invalidStatusMsg s ∨ fromisoformat s = .error m) ∧
      ∀ cid, execCall [sampleTask]
          ⟨cid, .update ⟨"T1", none, none, none, some "nonsense", some "2024-99-99", none⟩⟩ =
        ([sampleTask], ⟨cid, dumpJVal (errorPayload m)⟩)) :=
  ⟨rfl,
    C4_invalid_argument_fails_atomically
      (.update ⟨"T1", none, none, none, some "nonsense", some "2024-99-99", none⟩)
      [sampleTask] rfl⟩

instance (o : Option PyDate) : Decidable (OptDateValid o) := by
  cases o <;> unfold OptDateValid <;> infer_instance

theorem digitVal_digitChar (n : Nat) : digitVal (digitChar n) = some (n % 10) := by
  have h10 : n % 10 < 10 := Nat.mod_lt _ (by norm_num)
  have key : ∀ r, r < 10 → digitVal (Char.ofNat (48 + r)) = some r := by decide
  simpa [digitChar] using key (n % 10) h10

theorem isoformat_data (d : PyDate) :
    d.isoformat.data =
      [digitChar (d.year / 1000), digitChar (d.year / 100), digitChar (d.year / 10),
       digitChar d.year, '-', digitChar (d.month / 10), digitChar d.month, '-',
       digitChar (d.day / 10), digitChar d.day] := rfl

theorem daysInMonth_le_31 (y m : Nat) : daysInMonth y m ≤ 31 := by
  unfold daysInMonth
  split
  · split <;> norm_num
  · split <;> norm_num

theorem parseIsoShape_isoformat (d : PyDate) (hy : d.year ≤ 9999) (hm : d.month ≤ 12)
    (hd31 : d.day ≤ 31) :
    parseIsoShape d.isoformat = some (d.year, d.month, d.day) := by
  have ey : 1000 * (d.year / 1000 % 10) + 100 * (d.year / 100 % 10) +
      10 * (d.year / 10 % 10) + d.year % 10 = d.year := by omega
  have em : 10 * (d.month / 10 % 10) + d.month % 10 = d.month := by omega
  have ed : 10 * (d.day / 10 % 10) + d.day % 10 = d.day := by omega
  simp [parseIsoShape, isoformat_data, digitVal_digitChar, ey, em, ed]

theorem fromisoformat_isoformat (d : PyDate) (h : d.Valid) :
    fromisoformat d.isoformat = .ok d := by
  obtain ⟨hy1, hy2, hm1, hm2, hd1, hd2⟩ := h
  have hd31 : d.day ≤ 31 := hd2.trans (daysInMonth_le_31 d.year d.month)
  simp only [fromisoformat, parseIsoShape_isoformat d hy2 hm2 hd31]
  rw [mkDate, if_neg (by omega), if_neg (by omega), if_neg (by omega)]

theorem parseTaskType_value (ty : TaskType) : parseTaskType ty.value = some ty := by
  cases ty <;> rfl

theorem parseTaskStatus_value (st : TaskStatus) : parseTaskStatus st.value = some st := by
  cases st <;> rfl

/-- C8: serializing a Task to its field map and reconstructing a Task from
those same fields — dates parsed back from their `YYYY-MM-DD` strings, enums
from their value strings, null dates as None — yields the original Task,
field for field.  (The validity hypotheses record that Python `date` objects
are always valid calendar dates.) -/
theorem C8_to_dict_round_trip (t : Task) (hs : OptDateValid t.start_date)
    (hd : OptDateValid t.due_date) :
    taskFromDict t.to_dict = some t := by
  have hsd : getDate t.to_dict "start_date" = some t.start_date := by
    cases hcase : t.start_date with
    | none => simp [getDate, Task.to_dict, lookupAtom, dumpDate, hcase]
    | some d =>
      have hv : d.Valid := by rw [hcase] at hs; exact hs
      simp [getDate, Task.to_dict, lookupAtom, dumpDate, hcase,
        fromisoformat_isoformat d hv]
  have hdd : getDate t.to_dict "due_date" = some t.due_date := by
    cases hcase : t.due_date with
    | none => simp [getDate, Task.to_dict, lookupAtom, dumpDate, hcase]
    | some d =>
      have hv : d.Valid := by rw [hcase] at hd; exact hd
      simp [getDate, Task.to_dict, lookupAtom, dumpDate, hcase,
        fromisoformat_isoformat d hv]
  have hc : getStr t.to_dict "code" = some t.code := by
    simp [getStr, Task.to_dict, lookupAtom]
  have hti : getStr t.to_dict "title" = some t.title := by
    simp [getStr, Task.to_dict, lookupAtom]
  have hde : getStr t.to_dict "description" = some t.description := by
    simp [getStr, Task.to_dict, lookupAtom]
  have hty : (getStr t.to_dict "type").bind parseTaskType = some t.type := by
    simp [getStr, Task.to_dict, lookupAtom, parseTaskType_value]
  have hst : (getStr t.to_dict "status").bind parseTaskStatus = some t.status := by
    simp [getStr, Task.to_dict, lookupAtom, parseTaskStatus_value]
  rw [taskFromDict, hc, hti, hde, hty, hsd, hdd, hst]

/-- Witness for C8 at the concrete sample task carrying a set start date. -/
theorem C8_witness :
    OptDateValid sampleTask.start_date ∧ OptDateValid sampleTask.due_date ∧
    taskFromDict sampleTask.to_dict = some sampleTask :=
  ⟨by decide, by decide, C8_to_dict_round_trip sampleTask (by decide) (by decide)⟩

theorem execCall_id (tasks : List Task) (c : ToolCall) :
    (execCall tasks c).2.tool_call_id = c.id := by
  rcases h : dispatch c.request tasks with m | ⟨ts, v⟩ <;> simp [execCall, h]

theorem execCall_error (tasks : List Task) (c : ToolCall) (m : String)
    (h : dispatch c.request tasks = .error m) :
    execCall tasks c = (tasks, ⟨c.id, dumpJVal (errorPayload m)⟩) := by
  simp [execCall, h]

theorem execRound_length : ∀ (calls : List ToolCall) (tasks : List Task),
    (execRound tasks calls).2.length = calls.length := by
  intro calls
  induction calls with
  | nil => intro tasks; rfl
  | cons c rest ih => intro tasks; simp [execRound, ih]

theorem execRound_get? : ∀ (calls : List ToolCall) (tasks : List Task) (i : Nat)
    (h : i < calls.length),
    (execRound tasks calls).2.get? i =
      some (execCall (execRound tasks (calls.take i)).1 (calls.get ⟨i, h⟩)).2 := by
  intro calls
  induction calls with
  | nil => intro tasks i h; simp at h
  | cons c rest ih =>
    intro tasks i h
    cases i with
    | zero => simp [execRound]
    | succ n =>
      simpa [execRound, List.take_succ_cons] using
        ih (execCall tasks c).1 n (Nat.lt_of_succ_lt_succ h)

theorem execRound_take_succ : ∀ (calls : List ToolCall) (tasks : List Task) (i : Nat)
    (h : i < calls.length),
    (execRound tasks (calls.take (i + 1))).1 =
      (execCall (execRound tasks (calls.take i)).1 (calls.get ⟨i, h⟩)).1 := by
  intro calls
  induction calls with
  | nil => intro tasks i h; simp at h
  | cons c rest ih =>
    intro tasks i h
    cases i with
    | zero => simp [execRound]
    | succ n =>
      simpa [execRound, List.take_succ_cons] using
        ih (execCall tasks c).1 n (Nat.lt_of_succ_lt_succ h)

/-- C1: for a round-1 response carrying tool calls, the agent loop executes
every requested call in emission order — one result message per call, keyed
by that call's identifier, with no short-circuiting — a call whose dispatch
fails contributes the structured error payload and leaves the store as it
was, and the second model round always proceeds on the collected results. -/
theorem C1_round_executes_every_call (tasks : List Task) (calls : List ToolCall)
    (content : String) (round2 : List ToolMsg → String) (hne : calls ≠ []) :
    (execRound tasks calls).2.length = calls.length ∧
    (∀ i (h : i < calls.length),
      ((execRound tasks calls).2.get? i).map ToolMsg.tool_call_id =
        some (calls.get ⟨i, h⟩).id) ∧
    (∀ i (h : i < calls.length) (m : String),
      dispatch (calls.get ⟨i, h⟩).request (execRound tasks (calls.take i)).1 = .error m →
      (execRound tasks calls).2.get? i =
        some ⟨(calls.get ⟨i, h⟩).id, dumpJVal (errorPayload m)⟩ ∧
      (execRound tasks (calls.take (i + 1))).1 = (execRound tasks (calls.take i)).1) ∧
    agent ⟨content, calls⟩ round2 tasks =
      (round2 (execRound tasks calls).2, (execRound tasks calls).1) := by
  refine ⟨execRound_length calls tasks, ?_, ?_, ?_⟩
  · intro i h
    rw [execRound_get? calls tasks i h]
    simp [execCall_id]
  · intro i h m hm
    constructor
    · rw [execRound_get? calls tasks i h, execCall_error _ _ m hm]
    · rw [execRound_take_succ calls tasks i h, execCall_error _ _ m hm]
  · cases calls with
    | nil => exact absurd rfl hne
    | cons c rest => rfl

/-- Witness for C1 at the concrete two-call round of end-to-end scenario D:
an invalid-status add followed by a plain query. -/
theorem C1_witness :
    roundCalls ≠ [] ∧
    ((execRound [sampleTask] roundCalls).2.length = roundCalls.length ∧
    (∀ i (h : i < roundCalls.length),
      ((execRound [sampleTask] roundCalls).2.get? i).map ToolMsg.tool_call_id =
        some (roundCalls.get ⟨i, h⟩).id) ∧
    (∀ i (h : i < roundCalls.length) (m : String),
      dispatch (roundCalls.get ⟨i, h⟩).request
          (execRound [sampleTask] (roundCalls.take i)).1 = .error m →
      (execRound [sampleTask] roundCalls).2.get? i =
        some ⟨(roundCalls.get ⟨i, h⟩).id, dumpJVal (errorPayload m)⟩ ∧
      (execRound [sampleTask] (roundCalls.take (i + 1))).1 =
        (execRound [sampleTask] (roundCalls.take i)).1) ∧
    agent ⟨"", roundCalls⟩ (fun msgs => (msgs.map ToolMsg.content).headD "") [sampleTask] =
      ((((execRound [sampleTask] roundCalls).2.map ToolMsg.content).headD ""),
        (execRound [sampleTask] roundCalls).1)) :=
  ⟨by simp [roundCalls],
    C1_round_executes_every_call [sampleTask] roundCalls ""
      (fun msgs => (msgs.map ToolMsg.content).headD "") (by simp [roundCalls])⟩

/-- C9 counterexample: the store enforces no non-emptiness — a create with
empty code and empty title is accepted, so after this one-operation sequence
the store holds a task whose code and title are both "". -/
theorem C9_counterexample_empty_code_accepted :
    runOps [] [.create "" "" "" .task none none .pending] =
      [⟨"", "", "", .task, none, none, .pending⟩] :=
  rfl

/-- C9 (amended): after every sequence of store operations, the type and
status of every stored task lie in the closed enum sets — their serialized
values are among the four enum value strings each; the non-emptiness of code
and title claimed by the spec is NOT maintained by the code (see the
counterexample: create accepts empty strings, and update accepts ""). -/
theorem C9_enum_fields_stay_closed (ops : List StoreOp) (t : Task)
    (h : t ∈ runOps [] ops) :
    t.type.value ∈ ["bug", "feature", "improvement", "task"] ∧
    t.status.value ∈ ["pending", "in_progress", "done", "cancelled"] := by
  constructor
  · cases t.type <;> simp [TaskType.value]
  · cases t.status <;> simp [TaskStatus.value]

/-- Witness for C9 after one concrete create operation. -/
theorem C9_witness :
    taskA1 ∈ runOps [] [.create "A" "first" "" .task none none .pending] ∧
    (taskA1.type.value ∈ ["bug", "feature", "improvement", "task"] ∧
      taskA1.status.value ∈ ["pending", "in_progress", "done", "cancelled"]) :=
  ⟨by decide,
    C9_enum_fields_stay_closed [.create "A" "first" "" .task none none .pending]
      taskA1 (by decide)⟩

end TaskAgent
